import Mathlib

/-!
# Payload handler of the ipv4 package (`payload.go`)

A shallow embedding of `payloadHandler.ok`, `payloadHandler.Read` and
`payloadHandler.Write`.  The underlying connection and the control-message
helpers are collaborators of the handler; they are given as an environment of
functions, and every call the handler makes to one of them is recorded in a
trace, in the order of the source.

Conventions.
* A byte is a natural number; `int(b[0]) & 0x0f` only looks at the low nibble.
* A Go `int` is an `Int`.
* A nilable Go value is an `Option`; `none` is `nil`.
* A call that writes into a slice reports the bytes it stores; the slice
  afterwards is `copy slice bytes` (the length of a slice never changes).
* A run either returns or panics (index or slice out of range, failed type
  assertion).
-/

namespace Ipv4

/-- Go's `error` values seen by the handler: the three sentinels it returns
itself and whatever a collaborator reports. -/
inductive Error where
  | EINVAL
  | errInvalidConnType
  | errMissingAddress
  | other (code : Nat)
  deriving DecidableEq, Repr

/-- The struct behind `*net.UDPAddr`. -/
structure UDPAddr where
  IP : List Nat
  Port : Int
  deriving DecidableEq, Repr

/-- The struct behind `*net.IPAddr`. -/
structure IPAddr where
  IP : List Nat
  deriving DecidableEq, Repr

/-- A non-nil `net.Addr`: its dynamic type is `*net.UDPAddr`, `*net.IPAddr`
or something else. -/
inductive Addr where
  | UDPAddr (a : UDPAddr)
  | IPAddr (a : IPAddr)
  | other (name : String)
  deriving DecidableEq, Repr

/-- Modelled from the spec: the `ControlMessage` record, whose declaration is
not in `payload.go`.  A flat record of per-datagram metadata: time-to-live,
type-of-service marking, flags, interface identifier, source and destination
address (raw address bytes).  `payload.go` touches the field `Src` only. -/
structure ControlMessage where
  TTL : Int
  TOS : Int
  Flags : Int
  IfIndex : Int
  Src : List Nat
  Dst : List Nat
  deriving DecidableEq, Repr

/-- Modelled from the spec: the embedded `rawOpt`, the set of requested
ancillary options, whose declaration is not in `payload.go`.  The handler
only passes it on to `newControlMessage`. -/
structure rawOpt where
  bits : Nat
  deriving DecidableEq, Repr

/-- Modelled from the spec: the constant `maxHeaderLen`, the maximum IPv4
header length in bytes, whose declaration is not in `payload.go`. -/
def maxHeaderLen : Nat := 60

/-- The dynamic type of a non-nil `net.PacketConn`. -/
inductive PacketConn where
  | UDPConn
  | IPConn
  | other
  deriving DecidableEq, Repr

/-- The struct `payloadHandler`: the connection `c` (nilable) and the
embedded `rawOpt`. -/
structure payloadHandler where
  c : Option PacketConn
  opt : rawOpt
  deriving DecidableEq, Repr

/-- What `ReadMsgUDP` / `ReadMsgIP` hand back: `n`, `oobn`, `flags`, the peer
address and the error, together with the bytes stored at the front of the
payload buffer and of the ancillary buffer. -/
structure RecvResult where
  n : Int
  oobn : Int
  flags : Int
  src : Option Addr
  err : Option Error
  data : List Nat
  oobdata : List Nat
  deriving DecidableEq, Repr

/-- What `WriteMsgUDP` / `WriteMsgIP` hand back: `n`, `oobn` and the error. -/
structure SendResult where
  n : Int
  oobn : Int
  err : Option Error
  deriving DecidableEq, Repr

/-- The collaborators of the handler: the transport calls of the two
connection shapes and the control-message helpers that live in other files of
the package. -/
structure Env where
  ReadMsgUDP : List Nat → List Nat → RecvResult
  ReadMsgIP : List Nat → List Nat → RecvResult
  WriteMsgUDP : List Nat → List Nat → UDPAddr → SendResult
  WriteMsgIP : List Nat → List Nat → IPAddr → SendResult
  newControlMessage : rawOpt → List Nat
  parseControlMessage : List Nat → Option ControlMessage × Option Error
  marshalControlMessage : Option ControlMessage → List Nat
  netAddrToIP4 : Option Addr → List Nat

/-- One call to a collaborator, with its arguments (and, for a transport
call, what it handed back). -/
inductive Event where
  | newControlMessage (opt : rawOpt)
  | ReadMsgUDP (b oob : List Nat) (r : RecvResult)
  | ReadMsgIP (b oob : List Nat) (r : RecvResult)
  | WriteMsgUDP (b oob : List Nat) (dst : UDPAddr) (r : SendResult)
  | WriteMsgIP (b oob : List Nat) (dst : IPAddr) (r : SendResult)
  | parseControlMessage (oob : List Nat)
  | marshalControlMessage (cm : Option ControlMessage)
  | netAddrToIP4 (src : Option Addr)
  deriving DecidableEq, Repr

/-- Transport calls: the four receive / send calls on the connection. -/
def Event.isTransport : Event → Bool
  | .ReadMsgUDP _ _ _ => true
  | .ReadMsgIP _ _ _ => true
  | .WriteMsgUDP _ _ _ _ => true
  | .WriteMsgIP _ _ _ _ => true
  | _ => false

/-- Calls to the encode / decode collaborators. -/
def Event.isCodec : Event → Bool
  | .parseControlMessage _ => true
  | .marshalControlMessage _ => true
  | _ => false

/-- The error a transport call handed back (`none` for `nil` and for events
that are not transport calls). -/
def Event.transportErr : Event → Option Error
  | .ReadMsgUDP _ _ r => r.err
  | .ReadMsgIP _ _ r => r.err
  | .WriteMsgUDP _ _ _ r => r.err
  | .WriteMsgIP _ _ _ r => r.err
  | _ => none

/-- The peer address a receive call handed back. -/
def Event.recvSrc : Event → Option (Option Addr)
  | .ReadMsgUDP _ _ r => some r.src
  | .ReadMsgIP _ _ r => some r.src
  | _ => none

/-- How a run ends: with the returned values, or with a run-time panic. -/
inductive Exec (ρ : Type) where
  | ret (v : ρ)
  | panic (msg : String)
  deriving DecidableEq, Repr

/-- Go's builtin `copy(dst, src)`: overwrites the first
`min(len(dst), len(src))` elements of `dst`. -/
def copy (dst src : List Nat) : List Nat :=
  src.take dst.length ++ dst.drop src.length

/-- The number of elements `copy(dst, src)` moves. -/
def copyCount (dst src : List Nat) : Nat :=
  min dst.length src.length

/-- Go's `make([]byte, n)`. -/
def make (n : Nat) : List Nat :=
  List.replicate n 0

/-- The ancillary bytes a receive call returned: `oob[:oobn]`, the first
`oobn` bytes of the ancillary buffer `oob` it was given, after the call stored
its bytes there. -/
def Event.recvAncillary : Event → Option (List Nat)
  | .ReadMsgUDP _ oob r => some ((copy oob r.oobdata).take r.oobn.toNat)
  | .ReadMsgIP _ oob r => some ((copy oob r.oobdata).take r.oobn.toNat)
  | _ => none

/-- The four results of `Read`: `n`, `cm`, `src`, `err`. -/
abbrev ReadRet := Int × Option ControlMessage × Option Addr × Option Error

/-- The two results of `Write`: `n`, `err`. -/
abbrev WriteRet := Int × Option Error

/-- A finished run of `Read`: the collaborator calls made, the contents of
the caller's buffer `b` afterwards, and how the run ended. -/
structure ReadRun where
  trace : List Event
  b : List Nat
  result : Exec ReadRet
  deriving DecidableEq, Repr

/-- A finished run of `Write`: the collaborator calls made and how the run
ended. -/
structure WriteRun where
  trace : List Event
  result : Exec WriteRet
  deriving DecidableEq, Repr

/-- The method `payloadHandler.ok` (line 18): true when the handler is not nil
and its connection `c.c` is not nil. -/
def ok (c : Option payloadHandler) : Bool :=
  match c with
  | none => false
  | some h => h.c.isSome

/-- The tail of `Read` after the type switch (lines 46-52): slice `oob` at
`oobn`, parse it, set `cm.Src` from the peer address, return. -/
def readTail (env : Env) (trace : List Event) (b oob : List Nat)
    (n oobn : Int) (src : Option Addr) : ReadRun :=
  if oobn < 0 ∨ (oob.length : Int) < oobn then
    ⟨trace, b, .panic "slice bounds out of range"⟩
  else
    let anc := oob.take oobn.toNat
    let trace := trace ++ [Event.parseControlMessage anc]
    match env.parseControlMessage anc with
    | (_, some err) => ⟨trace, b, .ret (0, none, none, some err)⟩
    | (none, none) => ⟨trace, b, .ret (n, none, src, none)⟩
    | (some cm, none) =>
      ⟨trace ++ [Event.netAddrToIP4 src], b,
        .ret (n, some { cm with Src := env.netAddrToIP4 src }, src, none)⟩

/-- The method `payloadHandler.Read` (lines 24-53). -/
def Read (env : Env) (c : Option payloadHandler) (b : List Nat) : ReadRun :=
  if !ok c then
    ⟨[], b, .ret (0, none, none, some .EINVAL)⟩
  else
    match c with
    | none => ⟨[], b, .panic "nil pointer dereference"⟩
    | some h =>
      let oob := env.newControlMessage h.opt
      let trace := [Event.newControlMessage h.opt]
      match h.c with
      | some .UDPConn =>
        let r := env.ReadMsgUDP b oob
        let trace := trace ++ [Event.ReadMsgUDP b oob r]
        let b := copy b r.data
        let oob := copy oob r.oobdata
        match r.err with
        | some err => ⟨trace, b, .ret (0, none, none, some err)⟩
        | none => readTail env trace b oob r.n r.oobn r.src
      | some .IPConn =>
        let nb := make (b.length + maxHeaderLen)
        let r := env.ReadMsgIP nb oob
        let trace := trace ++ [Event.ReadMsgIP nb oob r]
        let nb := copy nb r.data
        let oob := copy oob r.oobdata
        match r.err with
        | some err => ⟨trace, b, .ret (0, none, none, some err)⟩
        | none =>
          match b with
          | [] => ⟨trace, b, .panic "index out of range"⟩
          | b0 :: _ =>
            let hdrlen := ((b0 % 256) &&& 0x0f) <<< 2
            if nb.length < hdrlen then
              ⟨trace, b, .panic "slice bounds out of range"⟩
            else
              let b := copy b (nb.drop hdrlen)
              let n := r.n - (hdrlen : Int)
              readTail env trace b oob n r.oobn r.src
      | _ => ⟨trace, b, .ret (0, none, none, some .errInvalidConnType)⟩

/-- The method `payloadHandler.Write` (lines 61-81). -/
def Write (env : Env) (c : Option payloadHandler) (b : List Nat)
    (cm : Option ControlMessage) (dst : Option Addr) : WriteRun :=
  if !ok c then
    ⟨[], .ret (0, some .EINVAL)⟩
  else
    match c with
    | none => ⟨[], .panic "nil pointer dereference"⟩
    | some h =>
      let oob := env.marshalControlMessage cm
      let trace := [Event.marshalControlMessage cm]
      match dst with
      | none => ⟨trace, .ret (0, some .errMissingAddress)⟩
      | some d =>
        match h.c with
        | some .UDPConn =>
          match d with
          | .UDPAddr a =>
            let r := env.WriteMsgUDP b oob a
            let trace := trace ++ [Event.WriteMsgUDP b oob a r]
            match r.err with
            | some err => ⟨trace, .ret (0, some err)⟩
            | none => ⟨trace, .ret (r.n, none)⟩
          | _ => ⟨trace, .panic "interface conversion"⟩
        | some .IPConn =>
          match d with
          | .IPAddr a =>
            let r := env.WriteMsgIP b oob a
            let trace := trace ++ [Event.WriteMsgIP b oob a r]
            match r.err with
            | some err => ⟨trace, .ret (0, some err)⟩
            | none => ⟨trace, .ret (r.n, none)⟩
          | _ => ⟨trace, .panic "interface conversion"⟩
        | _ => ⟨trace, .ret (0, some .errInvalidConnType)⟩

/-- The address bytes of a peer address, for the stubs below (`nil` for an
address of another kind). -/
def stubAddrToIP4 : Option Addr → List Nat
  | some (.UDPAddr a) => a.IP
  | some (.IPAddr a) => a.IP
  | _ => []

/-- A stub environment: every receive call hands back `recv`, every send call
`send`, decoding always yields `decoded`, the ancillary buffer has `ooblen`
bytes and encoding yields no bytes. -/
def stubEnv (recv : RecvResult) (send : SendResult)
    (decoded : Option ControlMessage × Option Error) (ooblen : Nat) : Env where
  ReadMsgUDP := fun _ _ => recv
  ReadMsgIP := fun _ _ => recv
  WriteMsgUDP := fun _ _ _ => send
  WriteMsgIP := fun _ _ _ => send
  newControlMessage := fun _ => make ooblen
  parseControlMessage := fun _ => decoded
  marshalControlMessage := fun _ => []
  netAddrToIP4 := stubAddrToIP4

/-- An IPv4 header of `L` bytes: version 4 and header length `L / 4` in the
first octet, zeroes after it. -/
def header (L : Nat) : List Nat :=
  (0x40 + L / 4) :: List.replicate (L - 1) 0

/-- The peer of the stub datagrams. -/
def peer : Addr := .IPAddr ⟨[192, 0, 2, 1]⟩

/-- A successful receive of the packet `pkt` from `peer`, without ancillary
data. -/
def delivers (pkt : List Nat) : RecvResult where
  n := pkt.length
  oobn := 0
  flags := 0
  src := some peer
  err := none
  data := pkt
  oobdata := []

/-- A raw-IP stub whose receive call delivers `pkt`. -/
def rawStub (pkt : List Nat) : Env :=
  stubEnv (delivers pkt) ⟨0, 0, none⟩ (none, none) 0

/-- A usable handler on a connection of the given shape. -/
def handlerOn (conn : PacketConn) : Option payloadHandler :=
  some ⟨some conn, ⟨0⟩⟩

/-- A send and a receive stub that fail with the error `other 5`. -/
def failingStub : Env :=
  stubEnv ⟨0, 0, 0, none, some (.other 5), [], []⟩ ⟨0, 0, some (.other 5)⟩ (none, none) 0

/-- A decoder for the stubs: no bytes decode to nil; six bytes decode to a
message with the time-to-live, the interface index and the four source
address bytes they carry; anything else is a decode error. -/
def stubParse : List Nat → Option ControlMessage × Option Error
  | [] => (none, none)
  | [ttl, ifi, s1, s2, s3, s4] => (some ⟨ttl, 0, 0, ifi, [s1, s2, s3, s4], []⟩, none)
  | _ => (none, some (.other 22))

/-- A message-oriented stub: the ancillary buffer has eight bytes; the receive
call reports four payload bytes from `203.0.113.9:4000` and six ancillary
bytes, which carry a source field `10.0.0.1` of their own. -/
def echoStub : Env where
  ReadMsgUDP := fun _ _ =>
    ⟨4, 6, 0, some (.UDPAddr ⟨[203, 0, 113, 9], 4000⟩), none, [1, 2, 3, 4],
      [64, 2, 10, 0, 0, 1]⟩
  ReadMsgIP := fun _ _ =>
    ⟨4, 6, 0, some (.UDPAddr ⟨[203, 0, 113, 9], 4000⟩), none, [1, 2, 3, 4],
      [64, 2, 10, 0, 0, 1]⟩
  WriteMsgUDP := fun _ _ _ => ⟨0, 0, none⟩
  WriteMsgIP := fun _ _ _ => ⟨0, 0, none⟩
  newControlMessage := fun _ => make 8
  parseControlMessage := stubParse
  marshalControlMessage := fun _ => []
  netAddrToIP4 := stubAddrToIP4

/-- A stub whose send call accepts the datagram and reports three bytes. -/
def sendStub : Env :=
  stubEnv (delivers []) ⟨3, 0, none⟩ (none, none) 0

/-! ## Auxiliary facts -/

theorem readTail_trace (env : Env) (trace : List Event) (b oob : List Nat)
    (n oobn : Int) (src : Option Addr) :
    (readTail env trace b oob n oobn src).trace.filter Event.isTransport
      = trace.filter Event.isTransport := by
  by_cases hb : oobn < 0 ∨ (oob.length : Int) < oobn
  · simp [readTail, hb]
  · rcases hp : env.parseControlMessage (oob.take oobn.toNat) with ⟨_ | m, _ | e⟩ <;>
      simp [readTail, hb, hp, List.filter_append, Event.isTransport]

theorem readTail_no_error (env : Env) (trace : List Event) (b oob : List Nat)
    (n oobn : Int) (src : Option Addr) (n1 : Int) (cm : Option ControlMessage)
    (src1 : Option Addr)
    (hret : (readTail env trace b oob n oobn src).result = .ret (n1, cm, src1, none)) :
    n1 = n ∧ src1 = src ∧
    Event.parseControlMessage (oob.take oobn.toNat)
      ∈ (readTail env trace b oob n oobn src).trace ∧
    (∀ m, (env.parseControlMessage (oob.take oobn.toNat)).1 = some m →
      cm = some { m with Src := env.netAddrToIP4 src }) ∧
    ((env.parseControlMessage (oob.take oobn.toNat)).1 = none → cm = none) := by
  by_cases hb : oobn < 0 ∨ (oob.length : Int) < oobn
  · simp [readTail, hb] at hret
  · rcases hp : env.parseControlMessage (oob.take oobn.toNat) with ⟨_ | m, _ | e⟩
    · simp only [readTail, hb, hp, if_false, Exec.ret.injEq, Prod.mk.injEq] at hret
      obtain ⟨h1, h2, h3, -⟩ := hret
      refine ⟨h1.symm, h3.symm, ?_, ?_, ?_⟩
      · simp [readTail, hb, hp]
      · intro m hm; simp at hm
      · intro _; exact h2.symm
    · simp [readTail, hb, hp] at hret
    · simp only [readTail, hb, hp, if_false, Exec.ret.injEq, Prod.mk.injEq] at hret
      obtain ⟨h1, h2, h3, -⟩ := hret
      refine ⟨h1.symm, h3.symm, ?_, ?_, ?_⟩
      · simp [readTail, hb, hp]
      · intro m1 hm
        simp only [Option.some.injEq] at hm
        subst hm
        exact h2.symm
      · intro hm; simp at hm
    · simp [readTail, hb, hp] at hret

theorem readTail_parse_mem (env : Env) (trace : List Event) (b oob : List Nat)
    (n oobn : Int) (src : Option Addr) (a : List Nat)
    (hev : Event.parseControlMessage a ∈ (readTail env trace b oob n oobn src).trace) :
    Event.parseControlMessage a ∈ trace ∨ a = oob.take oobn.toNat := by
  by_cases hb : oobn < 0 ∨ (oob.length : Int) < oobn
  · simp [readTail, hb] at hev
    exact Or.inl hev
  · rcases hp : env.parseControlMessage (oob.take oobn.toNat) with ⟨_ | m, _ | e⟩ <;>
      simp only [readTail, hb, hp, if_false, List.mem_append, List.mem_singleton] at hev
    · rcases hev with hev | hev
      · exact Or.inl hev
      · exact Or.inr (Event.parseControlMessage.inj hev)
    · rcases hev with hev | hev
      · exact Or.inl hev
      · exact Or.inr (Event.parseControlMessage.inj hev)
    · rcases hev with (hev | hev) | hev
      · exact Or.inl hev
      · exact Or.inr (Event.parseControlMessage.inj hev)
      · cases hev
    · rcases hev with hev | hev
      · exact Or.inl hev
      · exact Or.inr (Event.parseControlMessage.inj hev)

theorem readTail_mem (env : Env) (trace : List Event) (b oob : List Nat)
    (n oobn : Int) (src : Option Addr) (ev : Event)
    (hev : ev ∈ (readTail env trace b oob n oobn src).trace) :
    ev ∈ trace ∨ ev.transportErr = none := by
  by_cases hb : oobn < 0 ∨ (oob.length : Int) < oobn
  · simp [readTail, hb] at hev
    exact Or.inl hev
  · rcases hp : env.parseControlMessage (oob.take oobn.toNat) with ⟨_ | m, _ | e⟩ <;>
      simp only [readTail, hb, hp, if_false, List.mem_append, List.mem_singleton] at hev
    · rcases hev with hev | hev
      · exact Or.inl hev
      · subst hev; exact Or.inr rfl
    · rcases hev with hev | hev
      · exact Or.inl hev
      · subst hev; exact Or.inr rfl
    · rcases hev with (hev | hev) | hev
      · exact Or.inl hev
      · subst hev; exact Or.inr rfl
      · subst hev; exact Or.inr rfl
    · rcases hev with hev | hev
      · exact Or.inl hev
      · subst hev; exact Or.inr rfl

theorem readTail_keeps (env : Env) (trace : List Event) (b oob : List Nat)
    (n oobn : Int) (src : Option Addr) (ev : Event) (hev : ev ∈ trace) :
    ev ∈ (readTail env trace b oob n oobn src).trace := by
  by_cases hb : oobn < 0 ∨ (oob.length : Int) < oobn
  · simp [readTail, hb, hev]
  · rcases hp : env.parseControlMessage (oob.take oobn.toNat) with ⟨_ | m, _ | e⟩ <;>
      simp [readTail, hb, hp, hev]

theorem hdrlen_le (b0 : Nat) : ((b0 % 256) &&& 0x0f) <<< 2 ≤ maxHeaderLen := by
  have h1 : (b0 % 256) &&& 0x0f ≤ 0x0f := Nat.and_le_right
  rw [Nat.shiftLeft_eq]
  unfold maxHeaderLen
  omega

theorem copy_length (dst src : List Nat) : (copy dst src).length = dst.length := by
  simp only [copy, List.length_append, List.length_take, List.length_drop]
  omega

theorem Read_udp_err (env : Env) (h : payloadHandler) (b : List Nat) (e : Error)
    (hs : h.c = some .UDPConn)
    (hr : (env.ReadMsgUDP b (env.newControlMessage h.opt)).err = some e) :
    Read env (some h) b
      = ⟨[Event.newControlMessage h.opt,
          Event.ReadMsgUDP b (env.newControlMessage h.opt)
            (env.ReadMsgUDP b (env.newControlMessage h.opt))],
         copy b (env.ReadMsgUDP b (env.newControlMessage h.opt)).data,
         .ret (0, none, none, some e)⟩ := by
  simp [Read, ok, hs, hr]

theorem Read_udp_ok (env : Env) (h : payloadHandler) (b : List Nat)
    (hs : h.c = some .UDPConn)
    (hr : (env.ReadMsgUDP b (env.newControlMessage h.opt)).err = none) :
    Read env (some h) b
      = readTail env
          [Event.newControlMessage h.opt,
           Event.ReadMsgUDP b (env.newControlMessage h.opt)
            (env.ReadMsgUDP b (env.newControlMessage h.opt))]
          (copy b (env.ReadMsgUDP b (env.newControlMessage h.opt)).data)
          (copy (env.newControlMessage h.opt)
            (env.ReadMsgUDP b (env.newControlMessage h.opt)).oobdata)
          (env.ReadMsgUDP b (env.newControlMessage h.opt)).n
          (env.ReadMsgUDP b (env.newControlMessage h.opt)).oobn
          (env.ReadMsgUDP b (env.newControlMessage h.opt)).src := by
  simp [Read, ok, hs, hr]

theorem Read_ip_err (env : Env) (h : payloadHandler) (b : List Nat) (e : Error)
    (hs : h.c = some .IPConn)
    (hr : (env.ReadMsgIP (make (b.length + maxHeaderLen))
            (env.newControlMessage h.opt)).err = some e) :
    Read env (some h) b
      = ⟨[Event.newControlMessage h.opt,
          Event.ReadMsgIP (make (b.length + maxHeaderLen)) (env.newControlMessage h.opt)
            (env.ReadMsgIP (make (b.length + maxHeaderLen)) (env.newControlMessage h.opt))],
         b, .ret (0, none, none, some e)⟩ := by
  simp [Read, ok, hs, hr]

theorem Read_ip_nil (env : Env) (h : payloadHandler)
    (hs : h.c = some .IPConn)
    (hr : (env.ReadMsgIP (make (([] : List Nat).length + maxHeaderLen))
            (env.newControlMessage h.opt)).err = none) :
    Read env (some h) []
      = ⟨[Event.newControlMessage h.opt,
          Event.ReadMsgIP (make (([] : List Nat).length + maxHeaderLen))
            (env.newControlMessage h.opt)
            (env.ReadMsgIP (make (([] : List Nat).length + maxHeaderLen))
              (env.newControlMessage h.opt))],
         [], .panic "index out of range"⟩ := by
  simp only [Read, ok, hs, hr]
  simp

theorem Read_ip_cons (env : Env) (h : payloadHandler) (b0 : Nat) (bs : List Nat)
    (hs : h.c = some .IPConn)
    (hr : (env.ReadMsgIP (make ((b0 :: bs).length + maxHeaderLen))
            (env.newControlMessage h.opt)).err = none) :
    Read env (some h) (b0 :: bs)
      = readTail env
          [Event.newControlMessage h.opt,
           Event.ReadMsgIP (make ((b0 :: bs).length + maxHeaderLen))
            (env.newControlMessage h.opt)
            (env.ReadMsgIP (make ((b0 :: bs).length + maxHeaderLen))
              (env.newControlMessage h.opt))]
          (copy (b0 :: bs)
            ((copy (make ((b0 :: bs).length + maxHeaderLen))
              (env.ReadMsgIP (make ((b0 :: bs).length + maxHeaderLen))
                (env.newControlMessage h.opt)).data).drop
              (((b0 % 256) &&& 0x0f) <<< 2)))
          (copy (env.newControlMessage h.opt)
            (env.ReadMsgIP (make ((b0 :: bs).length + maxHeaderLen))
              (env.newControlMessage h.opt)).oobdata)
          ((env.ReadMsgIP (make ((b0 :: bs).length + maxHeaderLen))
              (env.newControlMessage h.opt)).n - ((((b0 % 256) &&& 0x0f) <<< 2 : Nat) : Int))
          (env.ReadMsgIP (make ((b0 :: bs).length + maxHeaderLen))
              (env.newControlMessage h.opt)).oobn
          (env.ReadMsgIP (make ((b0 :: bs).length + maxHeaderLen))
              (env.newControlMessage h.opt)).src := by
  have hlen : ¬ (copy (make ((b0 :: bs).length + maxHeaderLen))
      (env.ReadMsgIP (make ((b0 :: bs).length + maxHeaderLen))
        (env.newControlMessage h.opt)).data).length < ((b0 % 256) &&& 0x0f) <<< 2 := by
    have := hdrlen_le b0
    rw [copy_length]
    simp only [make, List.length_replicate]
    omega
  simp only [Read, ok, hs, hr]
  simp only [Option.isSome_some, Bool.not_true, Bool.false_eq_true, if_false, hlen,
    List.singleton_append]

/-! ## Guards and rejections -/

/-- C2: when `ok()` is false (the handler is nil or its connection is nil),
`Read` returns `(0, nil, nil, EINVAL)` and leaves `b` alone, `Write` returns
`(0, EINVAL)`, and neither makes any call to a collaborator: no transport
call, no encode, no decode. -/
theorem guard_enforcement (env : Env) (c : Option payloadHandler) (b : List Nat)
    (cm : Option ControlMessage) (dst : Option Addr) (hok : ok c = false) :
    Read env c b = ⟨[], b, .ret (0, none, none, some .EINVAL)⟩ ∧
    Write env c b cm dst = ⟨[], .ret (0, some .EINVAL)⟩ := by
  simp [Read, Write, hok]

/-- C2 at a handler with a nil connection. -/
theorem guard_enforcement_witness :
    ok (some ⟨none, ⟨0⟩⟩) = false ∧
    Read (rawStub [1]) (some ⟨none, ⟨0⟩⟩) [7]
      = ⟨[], [7], .ret (0, none, none, some .EINVAL)⟩ ∧
    Write (rawStub [1]) (some ⟨none, ⟨0⟩⟩) [7] none (some peer)
      = ⟨[], .ret (0, some .EINVAL)⟩ :=
  ⟨rfl, guard_enforcement (rawStub [1]) (some ⟨none, ⟨0⟩⟩) [7] none (some peer) rfl⟩

/-- C3: on a usable handler of any connection shape, `Write` with a nil
destination returns `(0, errMissingAddress)` whatever `b` and `cm` are; the
only collaborator called is the encoder, so no transport call is made. -/
theorem missing_destination (env : Env) (c : Option payloadHandler) (b : List Nat)
    (cm : Option ControlMessage) (hok : ok c = true) :
    (Write env c b cm none).result = .ret (0, some .errMissingAddress) ∧
    (Write env c b cm none).trace = [Event.marshalControlMessage cm] ∧
    (Write env c b cm none).trace.filter Event.isTransport = [] := by
  cases c with
  | none => simp [ok] at hok
  | some h => simp [Write, hok, Event.isTransport]

/-- C3 at a handler on a UDP connection. -/
theorem missing_destination_witness :
    ok (handlerOn .UDPConn) = true ∧
    (Write (rawStub []) (handlerOn .UDPConn) [1, 2] none none).result
      = .ret (0, some .errMissingAddress) ∧
    (Write (rawStub []) (handlerOn .UDPConn) [1, 2] none none).trace
      = [Event.marshalControlMessage none] ∧
    (Write (rawStub []) (handlerOn .UDPConn) [1, 2] none none).trace.filter
      Event.isTransport = [] :=
  ⟨rfl, missing_destination (rawStub []) (handlerOn .UDPConn) [1, 2] none rfl⟩

/-- C4, as the claim states it, fails: on a connection of an unrecognised
shape `Write` with a nil destination returns `errMissingAddress`, not
`errInvalidConnType`, because the destination check comes before the type
switch. -/
theorem shape_rejection_not_for_nil_destination :
    ¬ ∀ (env : Env) (h : payloadHandler) (b : List Nat)
        (cm : Option ControlMessage) (dst : Option Addr),
        h.c = some .other →
        (Read env (some h) b).result = .ret (0, none, none, some .errInvalidConnType) ∧
        (Write env (some h) b cm dst).result = .ret (0, some .errInvalidConnType) ∧
        (Read env (some h) b).trace.filter Event.isTransport = [] ∧
        (Write env (some h) b cm dst).trace.filter Event.isTransport = [] := by
  intro H
  have h1 := (H (rawStub []) ⟨some .other, ⟨0⟩⟩ [] none none rfl).2.1
  revert h1
  decide

/-- C4, amended: on a usable handler whose connection is neither a
`*net.UDPConn` nor a `*net.IPConn`, `Read` returns
`(0, nil, nil, errInvalidConnType)` for every buffer and `Write` returns
`(0, errInvalidConnType)` for every payload, control message and non-nil
destination; for every destination, nil included, no transport call is
made. -/
theorem shape_rejection (env : Env) (h : payloadHandler) (b : List Nat)
    (cm : Option ControlMessage) (d : Addr) (dst : Option Addr)
    (hshape : h.c = some .other) :
    Read env (some h) b
      = ⟨[Event.newControlMessage h.opt], b,
          .ret (0, none, none, some .errInvalidConnType)⟩ ∧
    Write env (some h) b cm (some d)
      = ⟨[Event.marshalControlMessage cm], .ret (0, some .errInvalidConnType)⟩ ∧
    (Read env (some h) b).trace.filter Event.isTransport = [] ∧
    (Write env (some h) b cm dst).trace.filter Event.isTransport = [] := by
  refine ⟨?_, ?_, ?_, ?_⟩
  · simp [Read, ok, hshape]
  · simp [Write, ok, hshape]
  · simp [Read, ok, hshape, Event.isTransport]
  · cases dst <;> simp [Write, ok, hshape, Event.isTransport]

/-- C4, amended, at a handler on a connection of an unrecognised shape. -/
theorem shape_rejection_witness :
    Read (rawStub [1]) (some ⟨some .other, ⟨3⟩⟩) [7]
      = ⟨[Event.newControlMessage ⟨3⟩], [7],
          .ret (0, none, none, some .errInvalidConnType)⟩ ∧
    Write (rawStub [1]) (some ⟨some .other, ⟨3⟩⟩) [7] none (some peer)
      = ⟨[Event.marshalControlMessage none], .ret (0, some .errInvalidConnType)⟩ ∧
    (Read (rawStub [1]) (some ⟨some .other, ⟨3⟩⟩) [7]).trace.filter
      Event.isTransport = [] ∧
    (Write (rawStub [1]) (some ⟨some .other, ⟨3⟩⟩) [7] none none).trace.filter
      Event.isTransport = [] :=
  shape_rejection (rawStub [1]) ⟨some .other, ⟨3⟩⟩ [7] none peer none rfl

/-! ## Transport errors -/

/-- C5: on a usable handler of either recognised shape `Read` makes exactly
one transport call.  Whenever the transport call of a `Read` handed back the
error `e`, `Read` returns `(0, nil, nil, e)` and the decoder (like the
encoder) is not called; whenever the transport call of a `Write` handed back
the error `e`, `Write` returns `(0, e)` and that call is its only transport
call. -/
theorem transport_error_propagation (env : Env) (h : payloadHandler) (b : List Nat)
    (cm : Option ControlMessage) (dst : Option Addr) (e : Error)
    (hshape : h.c = some .UDPConn ∨ h.c = some .IPConn) :
    ((Read env (some h) b).trace.filter Event.isTransport).length = 1 ∧
    (∀ ev ∈ (Read env (some h) b).trace, ev.transportErr = some e →
      (Read env (some h) b).result = .ret (0, none, none, some e) ∧
      ∀ ev1 ∈ (Read env (some h) b).trace, ev1.isCodec = false) ∧
    (∀ ev ∈ (Write env (some h) b cm dst).trace, ev.transportErr = some e →
      (Write env (some h) b cm dst).result = .ret (0, some e) ∧
      ((Write env (some h) b cm dst).trace.filter Event.isTransport).length = 1) := by
  refine ⟨?_, ?_, ?_⟩
  · rcases hshape with hs | hs
    · cases hr : (env.ReadMsgUDP b (env.newControlMessage h.opt)).err with
      | some e1 => simp [Read_udp_err env h b e1 hs hr, Event.isTransport]
      | none => simp [Read_udp_ok env h b hs hr, readTail_trace, Event.isTransport]
    · cases hr : (env.ReadMsgIP (make (b.length + maxHeaderLen))
          (env.newControlMessage h.opt)).err with
      | some e1 => simp [Read_ip_err env h b e1 hs hr, Event.isTransport]
      | none =>
        cases b with
        | nil => simp [Read_ip_nil env h hs hr, Event.isTransport]
        | cons b0 bs =>
          simp [Read_ip_cons env h b0 bs hs hr, readTail_trace, Event.isTransport]
  · intro ev hev herr
    rcases hshape with hs | hs
    · cases hr : (env.ReadMsgUDP b (env.newControlMessage h.opt)).err with
      | some e1 =>
        rw [Read_udp_err env h b e1 hs hr] at hev ⊢
        simp only [List.mem_cons, List.mem_singleton, List.not_mem_nil, or_false] at hev
        rcases hev with hev | hev
        · subst hev; simp [Event.transportErr] at herr
        · subst hev
          simp only [Event.transportErr, hr, Option.some.injEq] at herr
          subst herr
          simp [Event.isCodec]
      | none =>
        exfalso
        rw [Read_udp_ok env h b hs hr] at hev
        rcases readTail_mem _ _ _ _ _ _ _ _ hev with hev | hev
        · simp only [List.mem_cons, List.mem_singleton, List.not_mem_nil, or_false] at hev
          rcases hev with hev | hev
          · subst hev; simp [Event.transportErr] at herr
          · subst hev; simp [Event.transportErr, hr] at herr
        · simp [hev] at herr
    · cases hr : (env.ReadMsgIP (make (b.length + maxHeaderLen))
          (env.newControlMessage h.opt)).err with
      | some e1 =>
        rw [Read_ip_err env h b e1 hs hr] at hev ⊢
        simp only [List.mem_cons, List.mem_singleton, List.not_mem_nil, or_false] at hev
        rcases hev with hev | hev
        · subst hev; simp [Event.transportErr] at herr
        · subst hev
          simp only [Event.transportErr, hr, Option.some.injEq] at herr
          subst herr
          simp [Event.isCodec]
      | none =>
        exfalso
        have key : ev ∈ [Event.newControlMessage h.opt,
            Event.ReadMsgIP (make (b.length + maxHeaderLen)) (env.newControlMessage h.opt)
              (env.ReadMsgIP (make (b.length + maxHeaderLen)) (env.newControlMessage h.opt))]
            ∨ ev.transportErr = none := by
          cases b with
          | nil =>
            rw [Read_ip_nil env h hs hr] at hev
            exact Or.inl hev
          | cons b0 bs =>
            rw [Read_ip_cons env h b0 bs hs hr] at hev
            exact readTail_mem _ _ _ _ _ _ _ _ hev
        rcases key with hev | hev
        · simp only [List.mem_cons, List.mem_singleton, List.not_mem_nil, or_false] at hev
          rcases hev with hev | hev
          · subst hev; simp [Event.transportErr] at herr
          · subst hev; simp [Event.transportErr, hr] at herr
        · simp [hev] at herr
  · intro ev hev herr
    cases dst with
    | none =>
      have hw : (Write env (some h) b cm none).trace = [Event.marshalControlMessage cm] := by
        rcases hshape with hs | hs <;> simp [Write, ok, hs]
      rw [hw] at hev
      simp only [List.mem_singleton] at hev
      subst hev; simp [Event.transportErr] at herr
    | some d =>
      rcases hshape with hs | hs
      · cases d with
        | UDPAddr a =>
          cases hr : (env.WriteMsgUDP b (env.marshalControlMessage cm) a).err with
          | some e1 =>
            simp only [Write, ok, hs, hr] at hev ⊢
            simp at hev
            rcases hev with hev | hev
            · subst hev; simp [Event.transportErr] at herr
            · subst hev
              simp only [Event.transportErr, hr, Option.some.injEq] at herr
              subst herr
              simp [Event.isTransport]
          | none =>
            exfalso
            simp only [Write, ok, hs, hr] at hev
            simp at hev
            rcases hev with hev | hev
            · subst hev; simp [Event.transportErr] at herr
            · subst hev; simp [Event.transportErr, hr] at herr
        | IPAddr a =>
          exfalso
          simp [Write, ok, hs] at hev
          subst hev; simp [Event.transportErr] at herr
        | other name =>
          exfalso
          simp [Write, ok, hs] at hev
          subst hev; simp [Event.transportErr] at herr
      · cases d with
        | IPAddr a =>
          cases hr : (env.WriteMsgIP b (env.marshalControlMessage cm) a).err with
          | some e1 =>
            simp only [Write, ok, hs, hr] at hev ⊢
            simp at hev
            rcases hev with hev | hev
            · subst hev; simp [Event.transportErr] at herr
            · subst hev
              simp only [Event.transportErr, hr, Option.some.injEq] at herr
              subst herr
              simp [Event.isTransport]
          | none =>
            exfalso
            simp only [Write, ok, hs, hr] at hev
            simp at hev
            rcases hev with hev | hev
            · subst hev; simp [Event.transportErr] at herr
            · subst hev; simp [Event.transportErr, hr] at herr
        | UDPAddr a =>
          exfalso
          simp [Write, ok, hs] at hev
          subst hev; simp [Event.transportErr] at herr
        | other name =>
          exfalso
          simp [Write, ok, hs] at hev
          subst hev; simp [Event.transportErr] at herr

/-- C5 at a UDP connection whose receive and send calls fail. -/
theorem transport_error_propagation_witness :
    (Read failingStub (handlerOn .UDPConn) [0]).result
      = .ret (0, none, none, some (.other 5)) ∧
    (Write failingStub (handlerOn .UDPConn) [0] none
        (some (.UDPAddr ⟨[192, 0, 2, 1], 53⟩))).result
      = .ret (0, some (.other 5)) :=
  have H := transport_error_propagation failingStub ⟨some .UDPConn, ⟨0⟩⟩ [0] none
    (some (.UDPAddr ⟨[192, 0, 2, 1], 53⟩)) (.other 5) (Or.inl rfl)
  ⟨(H.2.1 (Event.ReadMsgUDP [0] [] ⟨0, 0, 0, none, some (.other 5), [], []⟩)
      (by decide) rfl).1,
   (H.2.2 (Event.WriteMsgUDP [0] [] ⟨[192, 0, 2, 1], 53⟩ ⟨0, 0, some (.other 5)⟩)
      (by decide) rfl).1⟩

/-! ## Successful runs -/

/-- C6: when `Read` returns `(n, cm, src, nil)`, the handler made one
receive call (on the caller's buffer for UDP, on the temporary buffer for
raw IP, with the ancillary buffer of `newControlMessage`), `src` is the peer
address that call handed back, and the decoder was called on the ancillary
bytes `oob[:oobn]` that call returned and on nothing else.  If decoding those
bytes yielded a message `m`, then `cm` is `m` with the field `Src` replaced by
`netAddrToIP4(src)` and every other field as decoded; if it yielded nil, `cm`
is nil. -/
theorem source_address_override (env : Env) (c : Option payloadHandler) (b : List Nat)
    (n : Int) (cm : Option ControlMessage) (src : Option Addr)
    (hret : (Read env c b).result = .ret (n, cm, src, none)) :
    ∃ h, c = some h ∧
    ∃ ev ∈ (Read env c b).trace,
      (ev = Event.ReadMsgUDP b (env.newControlMessage h.opt)
              (env.ReadMsgUDP b (env.newControlMessage h.opt)) ∨
       ev = Event.ReadMsgIP (make (b.length + maxHeaderLen)) (env.newControlMessage h.opt)
              (env.ReadMsgIP (make (b.length + maxHeaderLen))
                (env.newControlMessage h.opt))) ∧
      ev.recvSrc = some src ∧
      ∃ anc, ev.recvAncillary = some anc ∧
        Event.parseControlMessage anc ∈ (Read env c b).trace ∧
        (∀ a, Event.parseControlMessage a ∈ (Read env c b).trace → a = anc) ∧
        (∀ m, (env.parseControlMessage anc).1 = some m →
          cm = some { m with Src := env.netAddrToIP4 src }) ∧
        ((env.parseControlMessage anc).1 = none → cm = none) := by
  cases c with
  | none => simp [Read, ok] at hret
  | some h =>
    refine ⟨h, rfl, ?_⟩
    rcases hs : h.c with _ | _ | _ | _
    · simp [Read, ok, hs] at hret
    · cases hr : (env.ReadMsgUDP b (env.newControlMessage h.opt)).err with
      | some e1 => simp [Read_udp_err env h b e1 hs hr] at hret
      | none =>
        rw [Read_udp_ok env h b hs hr] at hret ⊢
        obtain ⟨-, hsrc, hmem, hsome, hnone⟩ := readTail_no_error _ _ _ _ _ _ _ _ _ _ hret
        subst hsrc
        refine ⟨Event.ReadMsgUDP b (env.newControlMessage h.opt)
          (env.ReadMsgUDP b (env.newControlMessage h.opt)), ?_, Or.inl rfl, rfl,
          _, rfl, hmem, ?_, hsome, hnone⟩
        · exact readTail_keeps _ _ _ _ _ _ _ _ (by simp)
        · intro a ha
          rcases readTail_parse_mem _ _ _ _ _ _ _ _ ha with ha | ha
          · simp at ha
          · exact ha
    · cases hr : (env.ReadMsgIP (make (b.length + maxHeaderLen))
          (env.newControlMessage h.opt)).err with
      | some e1 => simp [Read_ip_err env h b e1 hs hr] at hret
      | none =>
        cases b with
        | nil => simp [Read_ip_nil env h hs hr] at hret
        | cons b0 bs =>
          rw [Read_ip_cons env h b0 bs hs hr] at hret ⊢
          obtain ⟨-, hsrc, hmem, hsome, hnone⟩ :=
            readTail_no_error _ _ _ _ _ _ _ _ _ _ hret
          subst hsrc
          refine ⟨Event.ReadMsgIP (make ((b0 :: bs).length + maxHeaderLen))
            (env.newControlMessage h.opt)
            (env.ReadMsgIP (make ((b0 :: bs).length + maxHeaderLen))
              (env.newControlMessage h.opt)), ?_, Or.inr rfl, rfl,
            _, rfl, hmem, ?_, hsome, hnone⟩
          · exact readTail_keeps _ _ _ _ _ _ _ _ (by simp)
          · intro a ha
            rcases readTail_parse_mem _ _ _ _ _ _ _ _ ha with ha | ha
            · simp at ha
            · exact ha
    · simp [Read, ok, hs] at hret

/-- C6 at a UDP connection whose receive call returns six ancillary bytes
carrying a source field of their own: the run decodes exactly those bytes and
returns the decoded message with the peer's address as `Src`. -/
theorem source_address_override_witness :
    (Read echoStub (handlerOn .UDPConn) [0, 0, 0, 0]).result
      = .ret (4, some ⟨64, 0, 0, 2, [203, 0, 113, 9], []⟩,
          some (.UDPAddr ⟨[203, 0, 113, 9], 4000⟩), none) ∧
    Event.parseControlMessage [64, 2, 10, 0, 0, 1]
      ∈ (Read echoStub (handlerOn .UDPConn) [0, 0, 0, 0]).trace ∧
    (echoStub.parseControlMessage [64, 2, 10, 0, 0, 1]).1
      = some ⟨64, 0, 0, 2, [10, 0, 0, 1], []⟩ ∧
    ∃ h, handlerOn .UDPConn = some h ∧
    ∃ ev ∈ (Read echoStub (handlerOn .UDPConn) [0, 0, 0, 0]).trace,
      (ev = Event.ReadMsgUDP [0, 0, 0, 0] (echoStub.newControlMessage h.opt)
              (echoStub.ReadMsgUDP [0, 0, 0, 0] (echoStub.newControlMessage h.opt)) ∨
       ev = Event.ReadMsgIP (make (([0, 0, 0, 0] : List Nat).length + maxHeaderLen))
              (echoStub.newControlMessage h.opt)
              (echoStub.ReadMsgIP (make (([0, 0, 0, 0] : List Nat).length + maxHeaderLen))
                (echoStub.newControlMessage h.opt))) ∧
      ev.recvSrc = some (some (.UDPAddr ⟨[203, 0, 113, 9], 4000⟩)) ∧
      ∃ anc, ev.recvAncillary = some anc ∧
        Event.parseControlMessage anc
          ∈ (Read echoStub (handlerOn .UDPConn) [0, 0, 0, 0]).trace ∧
        (∀ a, Event.parseControlMessage a
          ∈ (Read echoStub (handlerOn .UDPConn) [0, 0, 0, 0]).trace → a = anc) ∧
        (∀ m, (echoStub.parseControlMessage anc).1 = some m →
          some (⟨64, 0, 0, 2, [203, 0, 113, 9], []⟩ : ControlMessage)
            = some { m with
                Src := echoStub.netAddrToIP4
                  (some (.UDPAddr ⟨[203, 0, 113, 9], 4000⟩)) }) ∧
        ((echoStub.parseControlMessage anc).1 = none →
          some (⟨64, 0, 0, 2, [203, 0, 113, 9], []⟩ : ControlMessage) = none) :=
  ⟨by decide, by decide, by decide,
   source_address_override echoStub (handlerOn .UDPConn) [0, 0, 0, 0] 4
    (some ⟨64, 0, 0, 2, [203, 0, 113, 9], []⟩)
    (some (.UDPAddr ⟨[203, 0, 113, 9], 4000⟩)) (by decide)⟩

/-- C8: on a usable handler of either recognised shape, for every payload
`b`, every control message `cm` (nil allowed) and every non-nil destination of
the matching kind, the only transport call `Write` makes is one send with the
arguments `(b, marshalControlMessage(cm), dst)`; when that send reports `n`
bytes and no error, `Write` returns `(n, nil)`. -/
theorem write_pass_through (env : Env) (h : payloadHandler) (b : List Nat)
    (cm : Option ControlMessage) :
    (∀ a : UDPAddr, h.c = some .UDPConn →
      (Write env (some h) b cm (some (.UDPAddr a))).trace.filter Event.isTransport
        = [Event.WriteMsgUDP b (env.marshalControlMessage cm) a
            (env.WriteMsgUDP b (env.marshalControlMessage cm) a)] ∧
      ((env.WriteMsgUDP b (env.marshalControlMessage cm) a).err = none →
        (Write env (some h) b cm (some (.UDPAddr a))).result
          = .ret ((env.WriteMsgUDP b (env.marshalControlMessage cm) a).n, none))) ∧
    (∀ a : IPAddr, h.c = some .IPConn →
      (Write env (some h) b cm (some (.IPAddr a))).trace.filter Event.isTransport
        = [Event.WriteMsgIP b (env.marshalControlMessage cm) a
            (env.WriteMsgIP b (env.marshalControlMessage cm) a)] ∧
      ((env.WriteMsgIP b (env.marshalControlMessage cm) a).err = none →
        (Write env (some h) b cm (some (.IPAddr a))).result
          = .ret ((env.WriteMsgIP b (env.marshalControlMessage cm) a).n, none))) := by
  constructor
  · intro a hs
    cases hr : (env.WriteMsgUDP b (env.marshalControlMessage cm) a).err <;>
      simp [Write, ok, hs, hr, Event.isTransport]
  · intro a hs
    cases hr : (env.WriteMsgIP b (env.marshalControlMessage cm) a).err <;>
      simp [Write, ok, hs, hr, Event.isTransport]

/-- C8 at a raw-IP connection and an IP destination. -/
theorem write_pass_through_witness :
    (Write sendStub (handlerOn .IPConn) [7, 8, 9] none (some peer)).trace.filter
        Event.isTransport
      = [Event.WriteMsgIP [7, 8, 9] [] ⟨[192, 0, 2, 1]⟩ ⟨3, 0, none⟩] ∧
    (Write sendStub (handlerOn .IPConn) [7, 8, 9] none (some peer)).result
      = .ret (3, none) :=
  have H := (write_pass_through sendStub ⟨some .IPConn, ⟨0⟩⟩ [7, 8, 9] none).2
    ⟨[192, 0, 2, 1]⟩ rfl
  ⟨H.1, H.2 rfl⟩

/-! ## Header stripping on a raw-IP connection

`Read` takes the header length from `b[0]`, the first octet of the caller's
buffer as it was before the call, not from the first octet of the temporary
buffer `nb` that the receive call filled. -/

/-- C1: a raw-IP receive delivers a 20-byte header (first octet `0x45`)
followed by the payload `[1, 2, 3]`, and the caller's buffer is three zero
bytes.  `Read` computes the header length 0 from `b[0]`, so it returns the
count 23, not 3, and `b` holds the first three header bytes, not the
payload. -/
theorem header_stripping_uses_caller_buffer :
    (Read (rawStub (header 20 ++ [1, 2, 3])) (handlerOn .IPConn) [0, 0, 0]).result
      = .ret (23, none, some peer, none) ∧
    (Read (rawStub (header 20 ++ [1, 2, 3])) (handlerOn .IPConn) [0, 0, 0]).b
      = [0x45, 0, 0] := by
  decide

/-- C7: a raw-IP receive delivers a 20-byte header followed by four payload
bytes into a caller's buffer of length 4.  With `b[0] = 0` the returned count
is 24, more than `len(b)`; with `b[0] = 0x4f` it is `24 - 60 = -36`, a
negative count.  In both runs `copy` moves four bytes.  When the packet
carries ten payload bytes and `b[0]` happens to be `0x45`, the count is 10
while `b` holds four bytes. -/
theorem read_count_outside_buffer :
    (Read (rawStub (header 20 ++ [1, 2, 3, 4])) (handlerOn .IPConn) [0, 0, 0, 0]).result
      = .ret (24, none, some peer, none) ∧
    (Read (rawStub (header 20 ++ [1, 2, 3, 4])) (handlerOn .IPConn) [0x4f, 0, 0, 0]).result
      = .ret (-36, none, some peer, none) ∧
    copyCount [0, 0, 0, 0]
        ((copy (make (4 + maxHeaderLen)) (header 20 ++ [1, 2, 3, 4])).drop 0) = 4 ∧
    copyCount [0x4f, 0, 0, 0]
        ((copy (make (4 + maxHeaderLen)) (header 20 ++ [1, 2, 3, 4])).drop 60) = 4 ∧
    (Read (rawStub (header 20 ++ [1, 2, 3, 4, 5, 6, 7, 8, 9, 10])) (handlerOn .IPConn)
        [0x45, 0, 0, 0]).result
      = .ret (10, none, some peer, none) ∧
    (Read (rawStub (header 20 ++ [1, 2, 3, 4, 5, 6, 7, 8, 9, 10])) (handlerOn .IPConn)
        [0x45, 0, 0, 0]).b
      = [1, 2, 3, 4] :=
  ⟨by decide, by decide, by decide, by decide, by decide, by decide⟩

/-- C9: two raw-IP reads with the same connection, the same transport result
(a 20-byte header followed by `[1, 2, 3]`) and buffers of the same length that
differ only in the octet `b[0]` held before the call.  With `b[0] = 0x45` the
run returns the count 3 and the payload; with `b[0] = 0x46` it returns the
count -1 and other bytes. -/
theorem header_length_depends_on_caller_buffer :
    (Read (rawStub (header 20 ++ [1, 2, 3])) (handlerOn .IPConn) [0x45, 0, 0]).result
      = .ret (3, none, some peer, none) ∧
    (Read (rawStub (header 20 ++ [1, 2, 3])) (handlerOn .IPConn) [0x45, 0, 0]).b
      = [1, 2, 3] ∧
    (Read (rawStub (header 20 ++ [1, 2, 3])) (handlerOn .IPConn) [0x46, 0, 0]).result
      = .ret (-1, none, some peer, none) ∧
    (Read (rawStub (header 20 ++ [1, 2, 3])) (handlerOn .IPConn) [0x46, 0, 0]).b
      = [0, 0, 0] :=
  ⟨by decide, by decide, by decide, by decide⟩

/-- C10: on a raw-IP connection, `Read` with the empty buffer panics after a
successful receive: `b[0]` is an index out of range. -/
theorem raw_read_panics_on_empty_buffer :
    (Read (rawStub (header 20 ++ [1, 2, 3])) (handlerOn .IPConn) []).result
      = .panic "index out of range" := by
  decide

end Ipv4
